import Mathlib

set_option autoImplicit false

/-!
# Verification of the `isked` task scheduler (itrepablik/isked)

Shallow embedding of `scheduler.go`.  Unix timestamps and Go `int`/`int64`
values are modelled as `Int` (the quantities involved stay far below 2^63, so
overflow does not occur on any input considered here).  Go's `time` package is
modelled for a fixed-offset zone (`time.Local` taken as UTC): `time.Date`
normalisation and `Time.Day`/`Time.Weekday`/`Time.Unix` are implemented with
the standard proleptic-Gregorian civil-date algorithms, which agree with Go's
own calendar computations.  Callbacks (`FuncToExec`) are opaque zero-argument
functions; they are modelled by an opaque reference (`Option Nat`), which is
all the scheduler itself ever does with them.
-/

/-! ## Civil-date arithmetic (model of Go's `time` package calendar) -/

/-- Days since 1970-01-01 of the civil date `(y, m, d)` for `m ∈ 1..12`
(`d` may be out of range; it is a linear offset, exactly as in Go's
`time.Date` normalisation).  This is the standard `days_from_civil`
computation; `/` on `Int` here is floor division (divisors are positive). -/
def daysFromCivil (y m d : Int) : Int :=
  let y2 := if m ≤ 2 then y - 1 else y
  let era := y2 / 400
  let yoe := y2 - era * 400
  let mp := (m + 9) % 12
  let doy := (153 * mp + 2) / 5 + d - 1
  let doe := yoe * 365 + yoe / 4 - yoe / 100 + doy
  era * 146097 + doe - 719468

/-- Day-of-month from a day-of-era `doe ∈ [0, 146096]` (the inner part of the
standard `civil_from_days` computation, used to model Go's `Time.Day`). -/
def dayOfDoe (doe : Int) : Int :=
  let yoe := (doe - doe / 1460 + doe / 36524 - doe / 146096) / 365
  let doy := doe - (365 * yoe + yoe / 4 - yoe / 100)
  let mp := (5 * doy + 2) / 153
  doy - (153 * mp + 2) / 5 + 1

/-- Day-of-month of the day `z` (days since 1970-01-01); models Go's
`Time.Day()`. -/
def civilDayOfDays (z : Int) : Int :=
  let z2 := z + 719468
  let era := z2 / 146097
  let doe := z2 - era * 146097
  dayOfDoe doe

/-- Model of Go's leap-year test (`y%4 == 0 && (y%100 != 0 || y%400 == 0)`;
divisibility is the same for Go's truncated `%` and `Int.emod`). -/
def isLeapYear (y : Int) : Bool :=
  y % 4 == 0 && (y % 100 != 0 || y % 400 == 0)

/-- The last calendar day of month `m` of year `y` (the reference value the
spec calls `lastDayOf(month)`). -/
def lastDayOf (y m : Int) : Int :=
  if m = 2 then (if isLeapYear y then 29 else 28)
  else if m = 4 ∨ m = 6 ∨ m = 9 ∨ m = 11 then 30 else 31

theorem isLeapYear_iff (y : Int) : isLeapYear y = true ↔
    (y % 4 = 0 ∧ (y % 100 ≠ 0 ∨ y % 400 = 0)) := by
  simp [isLeapYear, Bool.and_eq_true, Bool.or_eq_true, beq_iff_eq, bne_iff_ne]

/-- `daysFromCivil` is linear in the day argument. -/
theorem daysFromCivil_day (y m d : Int) :
    daysFromCivil y m d = daysFromCivil y m 0 + d := by
  simp only [daysFromCivil]
  ring

/-- Stepping from the first of month `m` to the first of the next month
advances by the length of month `m`. -/
theorem daysFromCivil_month_step (y m : Int) (h1 : 1 ≤ m) (h2 : m ≤ 12) :
    daysFromCivil (y + m / 12) (m % 12 + 1) 1 = daysFromCivil y m 1 + lastDayOf y m := by
  interval_cases m
  · simp only [daysFromCivil, lastDayOf]; norm_num; omega
  · -- February: length depends on the leap test
    simp only [daysFromCivil, lastDayOf]
    norm_num
    by_cases h : isLeapYear y = true
    · rw [isLeapYear_iff] at h
      simp only [if_pos ((isLeapYear_iff y).mpr h)]
      omega
    · have h2 : ¬ (y % 4 = 0 ∧ (y % 100 ≠ 0 ∨ y % 400 = 0)) :=
        fun hc => h ((isLeapYear_iff y).mpr hc)
      simp only [if_neg h]
      omega
  · simp only [daysFromCivil, lastDayOf]; norm_num; omega
  · simp only [daysFromCivil, lastDayOf]; norm_num; omega
  · simp only [daysFromCivil, lastDayOf]; norm_num; omega
  · simp only [daysFromCivil, lastDayOf]; norm_num; omega
  · simp only [daysFromCivil, lastDayOf]; norm_num; omega
  · simp only [daysFromCivil, lastDayOf]; norm_num; omega
  · simp only [daysFromCivil, lastDayOf]; norm_num; omega
  · simp only [daysFromCivil, lastDayOf]; norm_num; omega
  · simp only [daysFromCivil, lastDayOf]; norm_num; omega
  · simp only [daysFromCivil, lastDayOf]; norm_num; omega

/-- Stripping a whole era from the argument of `civilDayOfDays`. -/
theorem civilDayOfDays_era (era doe : Int) (h1 : 0 ≤ doe) (h2 : doe ≤ 146096) :
    civilDayOfDays (era * 146097 + doe - 719468) = dayOfDoe doe := by
  simp only [civilDayOfDays]
  congr 1
  omega

/-- Finite check: the day-of-era of the last day of each month, for every year
of the 400-year era.  `r` ranges over the year-of-era; the constants are the
day-of-year of the last day of each month in the shifted (March-first)
calendar. -/
theorem dayOfDoe_last_days : ∀ r : Fin 400,
    dayOfDoe (365 * (r : Int) + (r : Int) / 4 - (r : Int) / 100 + 336) = 31 ∧
    (1 ≤ (r : Int) →
      dayOfDoe (365 * (r : Int) + (r : Int) / 4 - (r : Int) / 100 - 1)
        = (if (r : Int) % 4 = 0 ∧ (r : Int) % 100 ≠ 0 then 29 else 28)) ∧
    dayOfDoe (365 * (r : Int) + (r : Int) / 4 - (r : Int) / 100 + 30) = 31 ∧
    dayOfDoe (365 * (r : Int) + (r : Int) / 4 - (r : Int) / 100 + 60) = 30 ∧
    dayOfDoe (365 * (r : Int) + (r : Int) / 4 - (r : Int) / 100 + 91) = 31 ∧
    dayOfDoe (365 * (r : Int) + (r : Int) / 4 - (r : Int) / 100 + 121) = 30 ∧
    dayOfDoe (365 * (r : Int) + (r : Int) / 4 - (r : Int) / 100 + 152) = 31 ∧
    dayOfDoe (365 * (r : Int) + (r : Int) / 4 - (r : Int) / 100 + 183) = 31 ∧
    dayOfDoe (365 * (r : Int) + (r : Int) / 4 - (r : Int) / 100 + 213) = 30 ∧
    dayOfDoe (365 * (r : Int) + (r : Int) / 4 - (r : Int) / 100 + 244) = 31 ∧
    dayOfDoe (365 * (r : Int) + (r : Int) / 4 - (r : Int) / 100 + 274) = 30 ∧
    dayOfDoe (365 * (r : Int) + (r : Int) / 4 - (r : Int) / 100 + 305) = 31 := by
  set_option maxRecDepth 10000 in decide

/-- Day number (days since 1970-01-01) of Go's `time.Date(y, m, d, ...)`:
the month index is normalised into the year exactly as Go's `norm` does
(floor-division carry), then the civil computation is applied; `d` is a plain
linear offset. -/
def goDateDays (y m d : Int) : Int :=
  daysFromCivil (y + (m - 1) / 12) ((m - 1) % 12 + 1) d

/-- Unix seconds of Go's `time.Date(y, m, d, hh, mi, 0, 0, loc)` with the
local zone modelled as UTC.  Hour/minute normalisation in Go is a pure
floor-carry, so the result is this linear combination. -/
def goDateUnix (y m d hh mi : Int) : Int :=
  goDateDays y m d * 86400 + hh * 3600 + mi * 60

/-- Bridge from the finite check to `Int` year-of-era values. -/
theorem dayOfDoe_check_int (C D k : Int) (h0 : 0 ≤ k) (h1 : k ≤ 399)
    (hch : ∀ r : Fin 400,
      dayOfDoe (365 * (r : Int) + (r : Int) / 4 - (r : Int) / 100 + C) = D) :
    dayOfDoe (365 * k + k / 4 - k / 100 + C) = D := by
  have h := hch ⟨k.toNat, by omega⟩
  have hcast : ((k.toNat : Nat) : Int) = k := Int.toNat_of_nonneg h0
  rw [show ((⟨k.toNat, by omega⟩ : Fin 400) : Int) = ((k.toNat : Nat) : Int) from rfl,
      hcast] at h
  exact h

/-- The February component of the finite check, on `Int` year-of-era values. -/
theorem dayOfDoe_feb_int (k : Int) (h0 : 1 ≤ k) (h1 : k ≤ 399) :
    dayOfDoe (365 * k + k / 4 - k / 100 - 1)
      = (if k % 4 = 0 ∧ k % 100 ≠ 0 then 29 else 28) := by
  have h := (dayOfDoe_last_days ⟨k.toNat, by omega⟩).2.1
  have hcast : ((k.toNat : Nat) : Int) = k := Int.toNat_of_nonneg (by omega)
  rw [show ((⟨k.toNat, by omega⟩ : Fin 400) : Int) = ((k.toNat : Nat) : Int) from rfl,
      hcast] at h
  exact h h0

/-- Core step for the last-day computation: a `civilDayOfDays` value whose
argument is a day-of-year offset `C` into year-of-era `y2 % 400`. -/
theorem lastDay_core (y2 C D : Int) (hC1 : -1 ≤ C) (hC2 : C ≤ 365)
    (hpos : C = -1 → 1 ≤ y2 % 400)
    (hch : dayOfDoe (365 * (y2 % 400) + (y2 % 400) / 4 - (y2 % 400) / 100 + C) = D) :
    civilDayOfDays (y2 / 400 * 146097 +
      ((y2 - y2 / 400 * 400) * 365 + (y2 - y2 / 400 * 400) / 4
        - (y2 - y2 / 400 * 400) / 100 + C) - 719468) = D := by
  have hr : y2 - y2 / 400 * 400 = y2 % 400 := by omega
  rw [hr]
  have harg : y2 / 400 * 146097 +
      ((y2 % 400) * 365 + (y2 % 400) / 4 - (y2 % 400) / 100 + C) - 719468
      = y2 / 400 * 146097 +
      (365 * (y2 % 400) + (y2 % 400) / 4 - (y2 % 400) / 100 + C) - 719468 := by ring
  rw [harg]
  rw [civilDayOfDays_era (y2 / 400)
      (365 * (y2 % 400) + (y2 % 400) / 4 - (y2 % 400) / 100 + C)
      (by rcases eq_or_ne C (-1) with h | h
          · have := hpos h; omega
          · omega)
      (by omega)]
  exact hch

/-- Go's `Date(y, m+1, 0).Day()` — the expression `getLastDayOfMonth`
evaluates — is the last calendar day of month `m` of year `y`. -/
theorem goLastDay_eq (y m : Int) (h1 : 1 ≤ m) (h2 : m ≤ 12) :
    civilDayOfDays (goDateDays y (m + 1) 0) = lastDayOf y m := by
  interval_cases m
  · simp only [goDateDays, daysFromCivil, lastDayOf]
    norm_num
    exact lastDay_core (y - 1) 336 31 (by norm_num) (by norm_num) (by norm_num)
      (dayOfDoe_check_int 336 31 _ (by omega) (by omega)
        (fun r => (dayOfDoe_last_days r).1))
  · -- February: the day count depends on whether `y` is a leap year
    simp only [goDateDays, daysFromCivil, lastDayOf]
    norm_num
    rcases eq_or_ne (y % 400) 0 with hz | hz
    · have hl : isLeapYear y = true := by rw [isLeapYear_iff]; omega
      rw [if_pos hl]
      have he : y / 400 * 146097 +
          ((y - y / 400 * 400) * 365 + (y - y / 400 * 400) / 4
            - (y - y / 400 * 400) / 100 + -1) - 719468
          = (y / 400 - 1) * 146097 + 146096 - 719468 := by omega
      rw [he, civilDayOfDays_era _ _ (by norm_num) (by norm_num)]
      decide
    · have hfi := dayOfDoe_feb_int (y % 400) (by omega) (by omega)
      by_cases hL : isLeapYear y = true
      · rw [if_pos hL]
        rw [isLeapYear_iff] at hL
        have hcond : (y % 400) % 4 = 0 ∧ (y % 400) % 100 ≠ 0 := by omega
        rw [if_pos hcond] at hfi
        exact lastDay_core y (-1) 29 (by norm_num) (by norm_num) (fun _ => by omega)
          (by rw [show 365 * (y % 400) + (y % 400) / 4 - (y % 400) / 100 + -1
                = 365 * (y % 400) + (y % 400) / 4 - (y % 400) / 100 - 1 from by ring]
              exact hfi)
      · rw [if_neg hL]
        have hnotc : ¬ (y % 4 = 0 ∧ (y % 100 ≠ 0 ∨ y % 400 = 0)) :=
          fun hc => hL ((isLeapYear_iff y).mpr hc)
        have hcond : ¬ ((y % 400) % 4 = 0 ∧ (y % 400) % 100 ≠ 0) := by omega
        rw [if_neg hcond] at hfi
        exact lastDay_core y (-1) 28 (by norm_num) (by norm_num) (fun _ => by omega)
          (by rw [show 365 * (y % 400) + (y % 400) / 4 - (y % 400) / 100 + -1
                = 365 * (y % 400) + (y % 400) / 4 - (y % 400) / 100 - 1 from by ring]
              exact hfi)
  · simp only [goDateDays, daysFromCivil, lastDayOf]
    norm_num
    exact lastDay_core y 30 31 (by norm_num) (by norm_num) (by norm_num)
      (dayOfDoe_check_int 30 31 _ (by omega) (by omega)
        (fun r => (dayOfDoe_last_days r).2.2.1))
  · simp only [goDateDays, daysFromCivil, lastDayOf]
    norm_num
    exact lastDay_core y 60 30 (by norm_num) (by norm_num) (by norm_num)
      (dayOfDoe_check_int 60 30 _ (by omega) (by omega)
        (fun r => (dayOfDoe_last_days r).2.2.2.1))
  · simp only [goDateDays, daysFromCivil, lastDayOf]
    norm_num
    exact lastDay_core y 91 31 (by norm_num) (by norm_num) (by norm_num)
      (dayOfDoe_check_int 91 31 _ (by omega) (by omega)
        (fun r => (dayOfDoe_last_days r).2.2.2.2.1))
  · simp only [goDateDays, daysFromCivil, lastDayOf]
    norm_num
    exact lastDay_core y 121 30 (by norm_num) (by norm_num) (by norm_num)
      (dayOfDoe_check_int 121 30 _ (by omega) (by omega)
        (fun r => (dayOfDoe_last_days r).2.2.2.2.2.1))
  · simp only [goDateDays, daysFromCivil, lastDayOf]
    norm_num
    exact lastDay_core y 152 31 (by norm_num) (by norm_num) (by norm_num)
      (dayOfDoe_check_int 152 31 _ (by omega) (by omega)
        (fun r => (dayOfDoe_last_days r).2.2.2.2.2.2.1))
  · simp only [goDateDays, daysFromCivil, lastDayOf]
    norm_num
    exact lastDay_core y 183 31 (by norm_num) (by norm_num) (by norm_num)
      (dayOfDoe_check_int 183 31 _ (by omega) (by omega)
        (fun r => (dayOfDoe_last_days r).2.2.2.2.2.2.2.1))
  · simp only [goDateDays, daysFromCivil, lastDayOf]
    norm_num
    exact lastDay_core y 213 30 (by norm_num) (by norm_num) (by norm_num)
      (dayOfDoe_check_int 213 30 _ (by omega) (by omega)
        (fun r => (dayOfDoe_last_days r).2.2.2.2.2.2.2.2.1))
  · simp only [goDateDays, daysFromCivil, lastDayOf]
    norm_num
    exact lastDay_core y 244 31 (by norm_num) (by norm_num) (by norm_num)
      (dayOfDoe_check_int 244 31 _ (by omega) (by omega)
        (fun r => (dayOfDoe_last_days r).2.2.2.2.2.2.2.2.2.1))
  · simp only [goDateDays, daysFromCivil, lastDayOf]
    norm_num
    exact lastDay_core y 274 30 (by norm_num) (by norm_num) (by norm_num)
      (dayOfDoe_check_int 274 30 _ (by omega) (by omega)
        (fun r => (dayOfDoe_last_days r).2.2.2.2.2.2.2.2.2.2.1))
  · simp only [goDateDays, daysFromCivil, lastDayOf]
    norm_num
    exact lastDay_core y 305 31 (by norm_num) (by norm_num) (by norm_num)
      (dayOfDoe_check_int 305 31 _ (by omega) (by omega)
        (fun r => (dayOfDoe_last_days r).2.2.2.2.2.2.2.2.2.2.2))

/-! ## The current instant

`time.Now()` is modelled by its civil decomposition in the local zone: the
components that the scheduler reads (`Year`, `Month`, `Day`, `Unix`,
`Weekday`) are all derived from it.  `GoNow.Valid` states exactly the ranges
`time.Now()` always satisfies. -/

structure GoNow where
  year : Int
  month : Int
  day : Int
  hour : Int
  minute : Int
  sec : Int

def GoNow.Valid (n : GoNow) : Prop :=
  1 ≤ n.month ∧ n.month ≤ 12 ∧ 1 ≤ n.day ∧ n.day ≤ lastDayOf n.year n.month ∧
  0 ≤ n.hour ∧ n.hour ≤ 23 ∧ 0 ≤ n.minute ∧ n.minute ≤ 59 ∧
  0 ≤ n.sec ∧ n.sec ≤ 59

instance (n : GoNow) : Decidable n.Valid :=
  decidable_of_iff
    (1 ≤ n.month ∧ n.month ≤ 12 ∧ 1 ≤ n.day ∧ n.day ≤ lastDayOf n.year n.month ∧
      0 ≤ n.hour ∧ n.hour ≤ 23 ∧ 0 ≤ n.minute ∧ n.minute ≤ 59 ∧
      0 ≤ n.sec ∧ n.sec ≤ 59) Iff.rfl

/-- `time.Now().Unix()` (local zone modelled as UTC). -/
def GoNow.unix (n : GoNow) : Int :=
  daysFromCivil n.year n.month n.day * 86400 +
    n.hour * 3600 + n.minute * 60 + n.sec

/-- `time.Now().Weekday()` (Go numbering: Sunday = 0 .. Saturday = 6;
1970-01-01 was a Thursday, weekday 4). -/
def GoNow.weekday (n : GoNow) : Int :=
  (daysFromCivil n.year n.month n.day + 4) % 7

/-! ## `strconv.Atoi` (errors discarded, as in the source) -/

/-- Accumulate decimal digits; `none` on the first non-digit or on empty
input (Go's `strconv.Atoi` syntax error). -/
def atoiDigits (cs : List Char) : Option Int :=
  if cs.isEmpty then none
  else cs.foldl
    (fun acc c => match acc with
      | none => none
      | some n => if c.isDigit then some (n * 10 + ((c.toNat : Int) - 48)) else none)
    (some 0)

/-- Go's `strconv.Atoi` with the error ignored: a failed parse contributes 0,
as in `runHour, _ := strconv.Atoi(s.runAtHour)`.  (The strings involved are
at most a few characters, so no range errors arise.) -/
def goAtoi (s : String) : Int :=
  match s.data with
  | [] => 0
  | c :: rest =>
    if c.toNat = 43 then (atoiDigits rest).getD 0
    else if c.toNat = 45 then -((atoiDigits rest).getD 0)
    else (atoiDigits (c :: rest)).getD 0

/-! ## The `Tasks` record (`scheduler.go`) -/

/-- The individual task item.  `ExecuteFunc` is an opaque callback
reference (`nil` = `none`); `dayName`/`monthName` are Go's
`time.Weekday`/`time.Month` as integers. -/
structure Tasks where
  Name : String
  RunType : String
  FrequencyInterval : String
  FrequencyValue : Int
  ExecuteFunc : Option Nat
  runAtHour : String
  runAtMinute : String
  isRunAt : Bool
  dayName : Int
  monthName : Int
  monthDay : Int
  nextRunTime : Int
  lastRunTime : Int
  created : Int
  deriving DecidableEq, Repr

/-- The task registry `TaskList map[string][]Tasks`, modelled as an
association list with Go-map insert semantics (unique keys). -/
abbrev Registry := List (String × List Tasks)

/-- Go map assignment `m[k] = v`: replaces any existing binding of `k`. -/
def Registry.insert (r : Registry) (k : String) (v : List Tasks) : Registry :=
  (k, v) :: r.filter (fun p => !(p.1 == k))

/-- Go map read `m[k]` together with the `ok` flag. -/
def Registry.lookup (r : Registry) (k : String) : Option (List Tasks) :=
  List.lookup k r

/-- `func (t *TaskScheduler) Get(taskName string) ([]Tasks, bool)` —
a missing key yields the zero value (empty slice) and `false`. -/
def TaskScheduler.Get (r : Registry) (taskName : String) : List Tasks × Bool :=
  match Registry.lookup r taskName with
  | some l => (l, true)
  | none => ([], false)

/-! ## Builder methods -/

/-- `func (s *Tasks) Seconds(interval int) *Tasks`. -/
def Tasks.Seconds (s : Tasks) (interval : Int) : Tasks :=
  { s with FrequencyInterval := "seconds",
           FrequencyValue := if interval ≤ 0 then 1 else interval }

/-- `func (s *Tasks) Minutes(interval int) *Tasks`. -/
def Tasks.Minutes (s : Tasks) (interval : Int) : Tasks :=
  { s with FrequencyInterval := "minutes",
           FrequencyValue := if interval ≤ 0 then 1 else interval }

/-- `func (s *Tasks) Hours(interval int) *Tasks`. -/
def Tasks.Hours (s : Tasks) (interval : Int) : Tasks :=
  { s with FrequencyInterval := "hours",
           FrequencyValue := if interval ≤ 0 then 1 else interval }

/-- Weekday selectors `Monday()` .. `Sunday()` (Go: Sunday = 0). -/
def Tasks.Monday (s : Tasks) : Tasks := { s with dayName := 1 }

def Tasks.Tuesday (s : Tasks) : Tasks := { s with dayName := 2 }

def Tasks.Wednesday (s : Tasks) : Tasks := { s with dayName := 3 }

def Tasks.Thursday (s : Tasks) : Tasks := { s with dayName := 4 }

def Tasks.Friday (s : Tasks) : Tasks := { s with dayName := 5 }

def Tasks.Saturday (s : Tasks) : Tasks := { s with dayName := 6 }

def Tasks.Sunday (s : Tasks) : Tasks := { s with dayName := 0 }

/-- `func getLastDayOfMonth(day int, month time.Month) int` — computes
`Date(currentYear, month, 1).AddDate(0, 1, -1).Day()`, i.e. the day-of-month
of `Date(currentYear, month+1, 0)`, then applies the 0/overflow clamping.
The current year is passed explicitly (the source reads it from
`time.Now()`). -/
def getLastDayOfMonth (day : Int) (month : Int) (currentYear : Int) : Int :=
  let lastDayOfMonth := civilDayOfDays (goDateDays currentYear (month + 1) 0)
  if day = 0 then lastDayOfMonth
  else if day > lastDayOfMonth then lastDayOfMonth
  else day

/-- `func (s *Tasks) Every(day int) *Tasks` (month/year read from
`time.Now()`). -/
def Tasks.Every (s : Tasks) (day : Int) (now : GoNow) : Tasks :=
  let lastDayOfMonth := getLastDayOfMonth day now.month now.year
  { s with monthDay :=
      if day = 0 then lastDayOfMonth
      else if day > lastDayOfMonth then getLastDayOfMonth day now.month now.year
      else day }

/-- Model of Go's `strings.TrimSpace` (leading and trailing whitespace
removed), implemented on the character list so that it evaluates. -/
def trimSpace (s : String) : String :=
  String.mk (((s.data.dropWhile Char.isWhitespace).reverse.dropWhile
    Char.isWhitespace).reverse)

/-- `func (s *Tasks) TaskName(taskName string) *Tasks`.  The fresh UUID that
`uuid.New().String()` would produce is passed in as `uuid` (an oracle for the
random generator); `now` supplies `time.Now()`.  Note the source assigns the
UUID to the local `taskName`, not to `newTaskName`, and the duplicate-check
loop overwrites `newTaskName` once per element of the existing entry list
(last element wins). -/
def TaskName (taskName : String) (uuid : String) (now : GoNow) (reg : Registry) :
    Tasks :=
  let newTaskName := trimSpace taskName
  let taskName2 := if newTaskName.length = 0 then uuid else taskName
  let payLoad := (Registry.lookup reg taskName2).getD []
  let finalName :=
    payLoad.foldl (fun _ e => e.Name ++ "_" ++ toString now.unix) newTaskName
  { Name := finalName, RunType := "", FrequencyInterval := "",
    FrequencyValue := 0, ExecuteFunc := none, runAtHour := "",
    runAtMinute := "", monthDay := 0, monthName := now.month,
    isRunAt := false,
    dayName := 0,  -- field omitted in the Go composite literal: zero value
    nextRunTime := 0, lastRunTime := 0, created := now.unix }

/-- `func (s *Tasks) Frequently() *Tasks`. -/
def Tasks.Frequently (s : Tasks) : Tasks := { s with RunType := "frequently" }

/-- `func (s *Tasks) OneTime(dt int64) *Tasks` — strict comparison
`dt < timeNow`; on a past timestamp falls back to `time.Now().Add(24h)`. -/
def Tasks.OneTime (s : Tasks) (dt : Int) (now : GoNow) : Tasks :=
  { s with RunType := "onetime",
           nextRunTime := if dt < now.unix then now.unix + 24 * 3600 else dt }

/-- `func (s *Tasks) Daily() *Tasks`. -/
def Tasks.Daily (s : Tasks) : Tasks := { s with RunType := "daily" }

/-- `func (s *Tasks) Weekly() *Tasks`. -/
def Tasks.Weekly (s : Tasks) : Tasks := { s with RunType := "weekly" }

/-- `func (s *Tasks) Monthly() *Tasks`. -/
def Tasks.Monthly (s : Tasks) : Tasks := { s with RunType := "monthly" }

/-- `func (s *Tasks) At(rt string) *Tasks` — only daily/weekly/monthly parse
the `"HH:MM"` string; malformed input defaults to midnight. -/
def Tasks.At (s : Tasks) (rt : String) : Tasks :=
  if s.RunType ≠ "onetime" ∧ s.RunType ≠ "frequently" then
    let pTime := trimSpace rt
    if pTime.contains (Char.ofNat 58) then
      if pTime.length = 5 then
        { s with isRunAt := true,
                 runAtHour := (pTime.splitOn ":").headD "",
                 runAtMinute := ((pTime.splitOn ":").drop 1).headD "" }
      else { s with isRunAt := true, runAtHour := "00", runAtMinute := "00" }
    else { s with isRunAt := true, runAtHour := "00", runAtMinute := "00" }
  else s

/-- `func (s *Tasks) ExecFunc(fn FuncToExec) *Tasks`. -/
def Tasks.ExecFunc (s : Tasks) (fn : Option Nat) : Tasks :=
  { s with ExecuteFunc := fn }

/-! ## Next-run computation (the `switch s.RunType` blocks) -/

/-- The `nextSchedToRun` computed by `AddTask` (starts at 0; the `switch`
in source order). -/
def addTaskNextSched (s : Tasks) (now : GoNow) : Int :=
  if s.RunType = "onetime" then s.nextRunTime
  else if s.RunType = "frequently" then
    (if s.FrequencyInterval = "seconds" then now.unix + s.FrequencyValue
     else if s.FrequencyInterval = "minutes" then now.unix + s.FrequencyValue * 60
     else if s.FrequencyInterval = "hours" then now.unix + s.FrequencyValue * 3600
     else 0)
  else if s.RunType = "daily" then
    goDateUnix now.year now.month (now.day + 1)
      (goAtoi s.runAtHour) (goAtoi s.runAtMinute)
  else if s.RunType = "weekly" then
    goDateUnix now.year now.month (now.day - (now.weekday - s.dayName))
      (goAtoi s.runAtHour) (goAtoi s.runAtMinute) + 7 * 24 * 3600
  else if s.RunType = "monthly" then
    goDateUnix now.year (now.month + 1) s.monthDay
      (goAtoi s.runAtHour) (goAtoi s.runAtMinute)
  else 0

/-- The `nextSchedToRun` computed by `UpdateNextRunTime` — identical to the
`AddTask` switch except that there is no `onetime` case (a one-time task
falls through to the `default` branch and keeps 0). -/
def updateNextSched (s : Tasks) (now : GoNow) : Int :=
  if s.RunType = "frequently" then
    (if s.FrequencyInterval = "seconds" then now.unix + s.FrequencyValue
     else if s.FrequencyInterval = "minutes" then now.unix + s.FrequencyValue * 60
     else if s.FrequencyInterval = "hours" then now.unix + s.FrequencyValue * 3600
     else 0)
  else if s.RunType = "daily" then
    goDateUnix now.year now.month (now.day + 1)
      (goAtoi s.runAtHour) (goAtoi s.runAtMinute)
  else if s.RunType = "weekly" then
    goDateUnix now.year now.month (now.day - (now.weekday - s.dayName))
      (goAtoi s.runAtHour) (goAtoi s.runAtMinute) + 7 * 24 * 3600
  else if s.RunType = "monthly" then
    goDateUnix now.year (now.month + 1) s.monthDay
      (goAtoi s.runAtHour) (goAtoi s.runAtMinute)
  else 0

/-! ## Committing and rescheduling -/

/-- The `newTask` composite literal built at the end of `AddTask`.  The
`dayName` field is omitted in the Go literal, so it takes the zero value. -/
def addTaskEntry (s : Tasks) (now : GoNow) : Tasks :=
  { Name := s.Name, RunType := s.RunType,
    FrequencyInterval := s.FrequencyInterval,
    FrequencyValue := s.FrequencyValue, ExecuteFunc := s.ExecuteFunc,
    runAtHour := s.runAtHour, runAtMinute := s.runAtMinute,
    isRunAt := s.isRunAt,
    dayName := 0,  -- omitted in the Go composite literal: zero value
    monthName := s.monthName, monthDay := s.monthDay,
    nextRunTime := addTaskNextSched s now, lastRunTime := 0,
    created := now.unix }

/-- Registry effect of `func (s *Tasks) AddTask()`:
`TS.TaskList[s.Name] = []Tasks{newTask}`. -/
def Tasks.AddTask (s : Tasks) (now : GoNow) (reg : Registry) : Registry :=
  Registry.insert reg s.Name [addTaskEntry s now]

/-- Notifications emitted by `AddTask`: the `default` branch logs an
error-level message, and the next-schedule info message is logged
unconditionally after the switch.  Message formatting is abstracted to the
structured content. -/
inductive Notification where
  | errorMisconfigured (name : String)
  | infoNextRun (name : String) (nextRunTime : Int)
  deriving DecidableEq, Repr

/-- Whether `s.RunType` matches one of the five `switch` cases of
`AddTask`. -/
def recognizedRunType (rt : String) : Bool :=
  rt == "onetime" || rt == "frequently" || rt == "daily" || rt == "weekly" ||
    rt == "monthly"

def addTaskNotifs (s : Tasks) (now : GoNow) : List Notification :=
  (if recognizedRunType s.RunType then []
   else [Notification.errorMisconfigured s.Name])
  ++ [Notification.infoNextRun s.Name (addTaskNextSched s now)]

/-- The `modTask` composite literal written back by `UpdateNextRunTime`.
`dayName` and `created` are omitted in the Go literal, so both take zero
values; `lastRunTime` is set to `time.Now().Unix()`. -/
def updateNextRunTimeEntry (s : Tasks) (now : GoNow) : Tasks :=
  { Name := s.Name, RunType := s.RunType,
    FrequencyInterval := s.FrequencyInterval,
    FrequencyValue := s.FrequencyValue, ExecuteFunc := s.ExecuteFunc,
    runAtHour := s.runAtHour, runAtMinute := s.runAtMinute,
    isRunAt := s.isRunAt,
    dayName := 0,  -- omitted in the Go composite literal: zero value
    monthName := s.monthName, monthDay := s.monthDay,
    nextRunTime := updateNextSched s now, lastRunTime := now.unix,
    created := 0 }

/-- Registry effect of `func (t *TaskScheduler) UpdateNextRunTime(s *Tasks)`:
`t.TaskList[s.Name] = []Tasks{*modTask}` under the registry lock. -/
def TaskScheduler.UpdateNextRunTime (reg : Registry) (s : Tasks) (now : GoNow) :
    Registry :=
  Registry.insert reg s.Name [updateNextRunTimeEntry s now]

/-! ## The poll loop (`Run`) -/

/-- All tasks visited by one sweep of `Run`'s nested range loops. -/
def registryTasks (reg : Registry) : List Tasks :=
  (reg.map Prod.snd).flatten

/-- The tasks dispatched (rescheduled and spawned) in one poll sweep of
`Run` at current unix time `now`: exactly those whose `nextRunTime` equals
`now` (`if s.nextRunTime == unixTimeNow`). -/
def runSweepDispatched (reg : Registry) (now : Int) : List Tasks :=
  (registryTasks reg).filter (fun s => s.nextRunTime == now)

/-! ## Registry lemmas -/

theorem lookup_filter_ne {β : Type} (k k2 : String) (l : List (String × β))
    (h : k2 ≠ k) :
    List.lookup k2 (l.filter (fun p => !(p.1 == k))) = List.lookup k2 l := by
  induction l with
  | nil => rfl
  | cons p t ih =>
    rcases p with ⟨pk, pv⟩
    by_cases hp : pk = k
    · subst hp
      have hne : (k2 == pk) = false := by simp [h]
      simp [List.filter, List.lookup, hne, ih]
    · have hf : (pk == k) = false := by simp [hp]
      by_cases h2 : k2 = pk
      · subst h2
        simp [List.filter, List.lookup, hf]
      · have hne : (k2 == pk) = false := by simp [h2]
        simp [List.filter, List.lookup, hne, ih, hf]

theorem lookup_insert_self (r : Registry) (k : String) (v : List Tasks) :
    Registry.lookup (Registry.insert r k v) k = some v := by
  simp [Registry.lookup, Registry.insert, List.lookup]

theorem lookup_insert_ne (r : Registry) (k k2 : String) (v : List Tasks)
    (h : k2 ≠ k) :
    Registry.lookup (Registry.insert r k v) k2 = Registry.lookup r k2 := by
  have hne : (k2 == k) = false := by simp [h]
  simp only [Registry.lookup, Registry.insert, List.lookup, hne]
  exact lookup_filter_ne k k2 r h

/-! ## Concrete fixtures used by witnesses and counterexamples -/

/-- Monday 2021-01-04, 10:00:00 local time. -/
def now0 : GoNow :=
  { year := 2021, month := 1, day := 4, hour := 10, minute := 0, sec := 0 }

/-- A freshly built task-in-progress (nextRunTime 0, empty RunType). -/
def tZero : Tasks := TaskName "zero" "uuid-0" now0 []

def reg1 : Registry := Registry.insert [] "zero" [tZero]

/-! ## C1 — dispatch on exact equality only -/

/-- C1: in a poll sweep of `Run` at current unix time `now`, a task is
dispatched iff its `nextRunTime` equals `now` exactly; in particular a task
with `nextRunTime = 0` is never dispatched at a positive current time. -/
theorem run_dispatch_iff (reg : Registry) (now : Int) (s : Tasks) :
    (s ∈ runSweepDispatched reg now ↔ s ∈ registryTasks reg ∧ s.nextRunTime = now)
    ∧ (0 < now → s.nextRunTime = 0 → s ∉ runSweepDispatched reg now) := by
  constructor
  · simp [runSweepDispatched, List.mem_filter]
  · intro hpos hz hmem
    rw [runSweepDispatched, List.mem_filter] at hmem
    have h2 := hmem.2
    rw [beq_iff_eq] at h2
    omega

/-- Witness for C1 at a concrete registry and time. -/
theorem run_dispatch_iff_witness : tZero ∉ runSweepDispatched reg1 5 :=
  (run_dispatch_iff reg1 5 tZero).2 (by norm_num) (by rfl)

/-! ## C2 — Frequently arithmetic and interval clamping -/

/-- C2: for a positive interval `v`, the next run time of a Frequently task
(at commit in `AddTask` and at reschedule in `UpdateNextRunTime`) is
`now + v * unit` for unit ∈ {1s, 60s, 3600s}; a non-positive `v` passed to
`Seconds`/`Minutes`/`Hours` stores `FrequencyValue = 1`. -/
theorem frequently_next_run (s : Tasks) (now : GoNow) (v : Int) :
    (0 < v →
      addTaskNextSched ((s.Frequently).Seconds v) now = now.unix + v * 1 ∧
      addTaskNextSched ((s.Frequently).Minutes v) now = now.unix + v * 60 ∧
      addTaskNextSched ((s.Frequently).Hours v) now = now.unix + v * 3600 ∧
      updateNextSched ((s.Frequently).Seconds v) now = now.unix + v * 1 ∧
      updateNextSched ((s.Frequently).Minutes v) now = now.unix + v * 60 ∧
      updateNextSched ((s.Frequently).Hours v) now = now.unix + v * 3600) ∧
    (v ≤ 0 →
      (s.Seconds v).FrequencyValue = 1 ∧
      (s.Minutes v).FrequencyValue = 1 ∧
      (s.Hours v).FrequencyValue = 1) := by
  constructor
  · intro hv
    have hnv : ¬ v ≤ 0 := by omega
    have hfo : ("frequently" : String) ≠ "onetime" := by decide
    have hms : ("minutes" : String) ≠ "seconds" := by decide
    have hhs : ("hours" : String) ≠ "seconds" := by decide
    have hhm : ("hours" : String) ≠ "minutes" := by decide
    norm_num [addTaskNextSched, updateNextSched, Tasks.Frequently, Tasks.Seconds,
      Tasks.Minutes, Tasks.Hours, hnv, hfo, hms, hhs, hhm]
  · intro hv
    simp [Tasks.Seconds, Tasks.Minutes, Tasks.Hours, hv]

/-- Witness for C2: both branches at concrete intervals. -/
theorem frequently_next_run_witness :
    addTaskNextSched ((tZero.Frequently).Seconds 3) now0 = now0.unix + 3 * 1
    ∧ (tZero.Seconds (-2)).FrequencyValue = 1 :=
  ⟨((frequently_next_run tZero now0 3).1 (by norm_num)).1,
   ((frequently_next_run tZero now0 (-2)).2 (by norm_num)).1⟩

/-! ## C6 — OneTime fallback (corrected: comparison is strict) -/

/-- C6 counterexample: at `dt = now` (not strictly in the future) the code
keeps `nextRunTime = dt` instead of falling back to `now + 24h`, because the
source compares with `dt < timeNow`, not `<=`. -/
theorem onetime_equal_now_counterexample :
    (Tasks.OneTime tZero now0.unix now0).nextRunTime = now0.unix
    ∧ (Tasks.OneTime tZero now0.unix now0).nextRunTime ≠ now0.unix + 24 * 3600 := by
  constructor
  · simp [Tasks.OneTime]
  · simp [Tasks.OneTime]

/-- C6 amended: only a strictly-past `dt` (`dt < now`) falls back to
`now + 24h`; any `dt ≥ now` — including `dt = now` — is stored unchanged. -/
theorem onetime_next_run (s : Tasks) (dt : Int) (now : GoNow) :
    (Tasks.OneTime s dt now).RunType = "onetime"
    ∧ (dt < now.unix → (Tasks.OneTime s dt now).nextRunTime = now.unix + 24 * 3600)
    ∧ (now.unix ≤ dt → (Tasks.OneTime s dt now).nextRunTime = dt) := by
  refine ⟨rfl, fun h => ?_, fun h => ?_⟩
  · simp [Tasks.OneTime, h]
  · simp only [Tasks.OneTime]
    rw [if_neg (by omega)]

/-- Witness for C6 at concrete timestamps on both sides of `now`. -/
theorem onetime_next_run_witness :
    (Tasks.OneTime tZero 5 now0).nextRunTime = now0.unix + 24 * 3600
    ∧ (Tasks.OneTime tZero (now0.unix + 10) now0).nextRunTime = now0.unix + 10 :=
  ⟨(onetime_next_run tZero 5 now0).2.1 (by decide),
   (onetime_next_run tZero (now0.unix + 10) now0).2.2 (by omega)⟩

/-! ## C7 — empty task name (code bug: the UUID lands in a dead variable) -/

/-- C7: for an empty or all-whitespace name, `TaskName` generates a UUID but
assigns it to the local `taskName` (only consulted for the duplicate lookup),
while the task is built from `newTaskName`, which remains the empty string.
The entry's `Name` is therefore `""`, contradicting the source's own comment
"Assign with random strings if empty" and the spec.  `hfresh` states that the
freshly generated UUID is not a registry key. -/
theorem taskname_empty_name_bug (uuid : String) (now : GoNow) (reg : Registry)
    (hfresh : Registry.lookup reg uuid = none) :
    (TaskName "" uuid now reg).Name = ""
    ∧ (TaskName " " uuid now reg).Name = "" := by
  constructor
  · simp [TaskName, hfresh, show trimSpace "" = "" from by decide]
  · simp [TaskName, hfresh, show trimSpace " " = "" from by decide]

/-- Witness for C7 at a concrete fresh UUID and empty registry. -/
theorem taskname_empty_name_bug_witness :
    (TaskName "" "3b241101-e2bb-4255-8caf-4136c566a962" now0 []).Name = ""
    ∧ (TaskName " " "3b241101-e2bb-4255-8caf-4136c566a962" now0 []).Name = "" :=
  taskname_empty_name_bug "3b241101-e2bb-4255-8caf-4136c566a962" now0 [] (by rfl)

/-! ## C9 — unrecognized RunType at commit (corrected: info is also emitted) -/

/-- C9 counterexample: for a task with an unrecognized (empty) `RunType`,
`AddTask` emits the informational next-run notification as well — the
`Infow` call sits after the `switch` and runs unconditionally — so the error
is not emitted *instead of* it. -/
theorem addtask_unrecognized_counterexample :
    Notification.infoNextRun "zero" 0 ∈ addTaskNotifs tZero now0 := by decide

/-- C9 amended: committing with an unrecognized rule still inserts the entry
under the task's name with `nextRunTime = 0`, and emits an error-level
notification *in addition to* the informational next-run notification (which
then reports a time formatted from 0). -/
theorem addtask_unrecognized (s : Tasks) (now : GoNow) (reg : Registry)
    (h : recognizedRunType s.RunType = false) :
    TaskScheduler.Get (Tasks.AddTask s now reg) s.Name = ([addTaskEntry s now], true)
    ∧ (addTaskEntry s now).nextRunTime = 0
    ∧ addTaskNotifs s now
        = [Notification.errorMisconfigured s.Name,
           Notification.infoNextRun s.Name 0] := by
  simp only [recognizedRunType, Bool.or_eq_false_iff, beq_eq_false_iff_ne] at h
  obtain ⟨⟨⟨⟨h1, h2⟩, h3⟩, h4⟩, h5⟩ := h
  have hz : addTaskNextSched s now = 0 := by
    simp [addTaskNextSched, h1, h2, h3, h4, h5]
  refine ⟨?_, by simp [addTaskEntry, hz], ?_⟩
  · simp [TaskScheduler.Get, Tasks.AddTask, lookup_insert_self]
  · simp [addTaskNotifs, recognizedRunType, h1, h2, h3, h4, h5, hz]

/-- Witness for C9: the freshly built task (empty `RunType`) at a concrete
time and registry. -/
theorem addtask_unrecognized_witness :
    TaskScheduler.Get (Tasks.AddTask tZero now0 []) tZero.Name
      = ([addTaskEntry tZero now0], true)
    ∧ (addTaskEntry tZero now0).nextRunTime = 0
    ∧ addTaskNotifs tZero now0
        = [Notification.errorMisconfigured tZero.Name,
           Notification.infoNextRun tZero.Name 0] :=
  addtask_unrecognized tZero now0 [] (by decide)

/-! ## C10 — frame of the reschedule write-back -/

/-- C10: the entry written back by `UpdateNextRunTime` for a recognized
recurring task preserves `Name`, `RunType`, `FrequencyInterval`,
`FrequencyValue`, `ExecuteFunc`, `runAtHour`, `runAtMinute`, `monthDay`,
`monthName` and `isRunAt`, changes `nextRunTime` (to the recomputed schedule)
and `lastRunTime` (to the current time), and resets `created` to 0 — the
`created` field is omitted from the Go composite literal, so the construction
timestamp does not survive the first firing. -/
theorem update_entry_frame (s : Tasks) (now : GoNow) (reg : Registry)
    (_hrec : s.RunType = "frequently" ∨ s.RunType = "daily" ∨ s.RunType = "weekly"
          ∨ s.RunType = "monthly") :
    TaskScheduler.Get (TaskScheduler.UpdateNextRunTime reg s now) s.Name
      = ([updateNextRunTimeEntry s now], true)
    ∧ (updateNextRunTimeEntry s now).Name = s.Name
    ∧ (updateNextRunTimeEntry s now).RunType = s.RunType
    ∧ (updateNextRunTimeEntry s now).FrequencyInterval = s.FrequencyInterval
    ∧ (updateNextRunTimeEntry s now).FrequencyValue = s.FrequencyValue
    ∧ (updateNextRunTimeEntry s now).ExecuteFunc = s.ExecuteFunc
    ∧ (updateNextRunTimeEntry s now).runAtHour = s.runAtHour
    ∧ (updateNextRunTimeEntry s now).runAtMinute = s.runAtMinute
    ∧ (updateNextRunTimeEntry s now).monthDay = s.monthDay
    ∧ (updateNextRunTimeEntry s now).monthName = s.monthName
    ∧ (updateNextRunTimeEntry s now).isRunAt = s.isRunAt
    ∧ (updateNextRunTimeEntry s now).nextRunTime = updateNextSched s now
    ∧ (updateNextRunTimeEntry s now).lastRunTime = now.unix
    ∧ (updateNextRunTimeEntry s now).created = 0 := by
  refine ⟨?_, rfl, rfl, rfl, rfl, rfl, rfl, rfl, rfl, rfl, rfl, rfl, rfl, rfl⟩
  simp [TaskScheduler.Get, TaskScheduler.UpdateNextRunTime, lookup_insert_self]

/-- Witness for C10 at a concrete frequently task. -/
theorem update_entry_frame_witness :
    TaskScheduler.Get
        (TaskScheduler.UpdateNextRunTime reg1 ((tZero.Frequently).Seconds 2) now0)
        ((tZero.Frequently).Seconds 2).Name
      = ([updateNextRunTimeEntry ((tZero.Frequently).Seconds 2) now0], true)
    ∧ (updateNextRunTimeEntry ((tZero.Frequently).Seconds 2) now0).Name
        = ((tZero.Frequently).Seconds 2).Name
    ∧ (updateNextRunTimeEntry ((tZero.Frequently).Seconds 2) now0).RunType
        = ((tZero.Frequently).Seconds 2).RunType
    ∧ (updateNextRunTimeEntry ((tZero.Frequently).Seconds 2) now0).FrequencyInterval
        = ((tZero.Frequently).Seconds 2).FrequencyInterval
    ∧ (updateNextRunTimeEntry ((tZero.Frequently).Seconds 2) now0).FrequencyValue
        = ((tZero.Frequently).Seconds 2).FrequencyValue
    ∧ (updateNextRunTimeEntry ((tZero.Frequently).Seconds 2) now0).ExecuteFunc
        = ((tZero.Frequently).Seconds 2).ExecuteFunc
    ∧ (updateNextRunTimeEntry ((tZero.Frequently).Seconds 2) now0).runAtHour
        = ((tZero.Frequently).Seconds 2).runAtHour
    ∧ (updateNextRunTimeEntry ((tZero.Frequently).Seconds 2) now0).runAtMinute
        = ((tZero.Frequently).Seconds 2).runAtMinute
    ∧ (updateNextRunTimeEntry ((tZero.Frequently).Seconds 2) now0).monthDay
        = ((tZero.Frequently).Seconds 2).monthDay
    ∧ (updateNextRunTimeEntry ((tZero.Frequently).Seconds 2) now0).monthName
        = ((tZero.Frequently).Seconds 2).monthName
    ∧ (updateNextRunTimeEntry ((tZero.Frequently).Seconds 2) now0).isRunAt
        = ((tZero.Frequently).Seconds 2).isRunAt
    ∧ (updateNextRunTimeEntry ((tZero.Frequently).Seconds 2) now0).nextRunTime
        = updateNextSched ((tZero.Frequently).Seconds 2) now0
    ∧ (updateNextRunTimeEntry ((tZero.Frequently).Seconds 2) now0).lastRunTime
        = now0.unix
    ∧ (updateNextRunTimeEntry ((tZero.Frequently).Seconds 2) now0).created = 0 :=
  update_entry_frame ((tZero.Frequently).Seconds 2) now0 reg1 (Or.inl rfl)

/-! ## C8 — duplicate names get a suffixed key, no overwrite -/

/-- C8: registering a second task through `TaskName`/`AddTask` under a name
that is already a registry key (held by an entry whose `Name` equals that
key, as `AddTask` guarantees) leaves the original entry retrievable under the
original key and inserts the new task under the distinct key
`name ++ "_" ++ <unix timestamp>`. -/
theorem duplicate_name_registration (name uuid : String) (e0 : Tasks)
    (reg : Registry) (now nowAdd : GoNow)
    (htrim : trimSpace name = name) (hne : name ≠ "")
    (hlook : Registry.lookup reg name = some [e0]) (hename : e0.Name = name) :
    (TaskName name uuid now reg).Name = name ++ "_" ++ toString now.unix
    ∧ name ++ "_" ++ toString now.unix ≠ name
    ∧ TaskScheduler.Get (Tasks.AddTask (TaskName name uuid now reg) nowAdd reg) name
        = ([e0], true)
    ∧ TaskScheduler.Get (Tasks.AddTask (TaskName name uuid now reg) nowAdd reg)
        (name ++ "_" ++ toString now.unix)
        = ([addTaskEntry (TaskName name uuid now reg) nowAdd], true) := by
  have hlen : ¬ (trimSpace name).length = 0 := by
    rw [htrim]
    intro h0
    exact hne (by
      cases name with
      | mk data => cases data with
        | nil => rfl
        | cons c cs => simp [String.length] at h0)
  have hlen2 : ¬ name.length = 0 := htrim ▸ hlen
  have hname : (TaskName name uuid now reg).Name
      = name ++ "_" ++ toString now.unix := by
    simp [TaskName, htrim, hlen2, hlook, hename]
  have hkne : name ++ "_" ++ toString now.unix ≠ name := by
    intro hEq
    have hl := congrArg String.length hEq
    rw [String.length_append, String.length_append] at hl
    have : ("_").length = 1 := rfl
    omega
  refine ⟨hname, hkne, ?_, ?_⟩
  · simp only [TaskScheduler.Get, Tasks.AddTask, hname]
    rw [lookup_insert_ne _ _ _ _ (fun h => hkne h.symm), hlook]
  · simp only [TaskScheduler.Get, Tasks.AddTask, hname]
    rw [lookup_insert_self]

/-- An entry registered under the name "job" (as `AddTask` would store it). -/
def e0fix : Tasks := addTaskEntry (TaskName "job" "uuid-1" now0 []) now0

def regJob : Registry := Registry.insert [] "job" [e0fix]

/-- Witness for C8: a second registration under the existing key "job". -/
theorem duplicate_name_registration_witness :
    (TaskName "job" "uuid-2" now0 regJob).Name = "job" ++ "_" ++ toString now0.unix
    ∧ "job" ++ "_" ++ toString now0.unix ≠ "job"
    ∧ TaskScheduler.Get
        (Tasks.AddTask (TaskName "job" "uuid-2" now0 regJob) now0 regJob) "job"
        = ([e0fix], true)
    ∧ TaskScheduler.Get
        (Tasks.AddTask (TaskName "job" "uuid-2" now0 regJob) now0 regJob)
        ("job" ++ "_" ++ toString now0.unix)
        = ([addTaskEntry (TaskName "job" "uuid-2" now0 regJob) now0], true) :=
  duplicate_name_registration "job" "uuid-2" e0fix regJob now0 now0
    (by decide) (by decide) (by decide) (by decide)

/-! ## C4 — month-day resolution (`getLastDayOfMonth`) -/

theorem lastDayOf_ge (y m : Int) : 28 ≤ lastDayOf y m := by
  simp only [lastDayOf]
  split_ifs <;> norm_num

/-- C4: `getLastDayOfMonth` (the spec's `resolveMonthDay`) maps 0 to the last
calendar day of the month, clamps any larger day to it, and passes any other
day through unchanged. -/
theorem resolveMonthDay_spec (y m d : Int) (h1 : 1 ≤ m) (h2 : m ≤ 12) :
    getLastDayOfMonth 0 m y = lastDayOf y m
    ∧ (lastDayOf y m < d → getLastDayOfMonth d m y = lastDayOf y m)
    ∧ (d ≠ 0 → d ≤ lastDayOf y m → getLastDayOfMonth d m y = d) := by
  have hl := goLastDay_eq y m h1 h2
  refine ⟨?_, fun hd => ?_, fun hd0 hdle => ?_⟩
  · simp [getLastDayOfMonth, hl]
  · simp only [getLastDayOfMonth, hl]
    have := lastDayOf_ge y m
    rw [if_neg (by omega), if_pos (by omega)]
  · simp only [getLastDayOfMonth, hl]
    rw [if_neg hd0, if_neg (by omega)]

/-- Witness for C4 in April 2021 (30 days): day 0, an overflowing day and an
in-range day. -/
theorem resolveMonthDay_spec_witness :
    getLastDayOfMonth 0 4 2021 = lastDayOf 2021 4
    ∧ getLastDayOfMonth 31 4 2021 = lastDayOf 2021 4
    ∧ getLastDayOfMonth 15 4 2021 = 15 :=
  ⟨(resolveMonthDay_spec 2021 4 0 (by norm_num) (by norm_num)).1,
   (resolveMonthDay_spec 2021 4 31 (by norm_num) (by norm_num)).2.1 (by decide),
   (resolveMonthDay_spec 2021 4 15 (by norm_num) (by norm_num)).2.2 (by norm_num)
     (by decide)⟩

/-! ## C5 — weekly recurrence (corrected: current-week occurrence, not the
most recent one) -/

/-- `time.Date` with an in-range month does no month normalisation. -/
theorem goDateDays_in_range (y m d : Int) (h1 : 1 ≤ m) (h2 : m ≤ 12) :
    goDateDays y m d = daysFromCivil y m d := by
  have e1 : (m - 1) / 12 = 0 := by omega
  have e2 : (m - 1) % 12 = m - 1 := by omega
  rw [goDateDays, e1, e2]
  norm_num

/-- Modelled from the spec: "the most recent occurrence (past or present) of
the configured weekday" — the latest day number `≤` today's whose Go weekday
(Sunday = 0) equals `w`. -/
def mostRecentWeekdayDays (now : GoNow) (w : Int) : Int :=
  daysFromCivil now.year now.month now.day - ((now.weekday - w) % 7)

/-- A weekly task: Saturday at 09:30 (used against Monday 2021-01-04). -/
def wSat : Tasks :=
  { Name := "w", RunType := "weekly", FrequencyInterval := "",
    FrequencyValue := 0, ExecuteFunc := none, runAtHour := "09",
    runAtMinute := "30", isRunAt := true, dayName := 6, monthName := 1,
    monthDay := 0, nextRunTime := 0, lastRunTime := 0, created := 0 }

/-- A weekly task: Monday at 08:15. -/
def wMon : Tasks :=
  { wSat with dayName := 1, runAtHour := "08", runAtMinute := "15" }

/-- C5 counterexample: on Monday 2021-01-04, a weekly Saturday task is
scheduled by the code for Saturday 2021-01-16 09:30, which is 14 days —
not 7 — after the most recent past-or-present Saturday (2021-01-02). -/
theorem weekly_most_recent_counterexample :
    addTaskNextSched wSat now0
      ≠ mostRecentWeekdayDays now0 6 * 86400
        + goAtoi "09" * 3600 + goAtoi "30" * 60 + 7 * 86400 := by decide

/-- C5 amended: for a weekly task the computed next run (identical in
`AddTask` and `UpdateNextRunTime`) is the configured weekday's occurrence in
the *current Sunday-first week* at the configured hour:minute, plus exactly 7
days.  This equals 7 days after the most recent past-or-present occurrence
exactly when the configured weekday does not come later in the week than
today's; otherwise the current-week occurrence is still upcoming and the
result lands 8–13 days out. -/
theorem weekly_next_run (s : Tasks) (now : GoNow) (hrt : s.RunType = "weekly")
    (hw0 : 0 ≤ s.dayName) (hw6 : s.dayName ≤ 6)
    (h1 : 1 ≤ now.month) (h2 : now.month ≤ 12) :
    addTaskNextSched s now
      = (daysFromCivil now.year now.month now.day - (now.weekday - s.dayName))
          * 86400
        + goAtoi s.runAtHour * 3600 + goAtoi s.runAtMinute * 60 + 7 * 86400
    ∧ updateNextSched s now = addTaskNextSched s now
    ∧ (s.dayName ≤ now.weekday →
        addTaskNextSched s now
          = mostRecentWeekdayDays now s.dayName * 86400
            + goAtoi s.runAtHour * 3600 + goAtoi s.runAtMinute * 60
            + 7 * 86400) := by
  have hupd : updateNextSched s now = addTaskNextSched s now := by
    simp only [addTaskNextSched, updateNextSched, hrt]
    rw [if_neg (show ¬ ("weekly" : String) = "onetime" by decide),
      if_neg (show ¬ ("weekly" : String) = "frequently" by decide),
      if_neg (show ¬ ("weekly" : String) = "daily" by decide)]
  have hmain : addTaskNextSched s now
      = (daysFromCivil now.year now.month now.day - (now.weekday - s.dayName))
          * 86400
        + goAtoi s.runAtHour * 3600 + goAtoi s.runAtMinute * 60 + 7 * 86400 := by
    simp only [addTaskNextSched, hrt]
    rw [if_neg (show ¬ ("weekly" : String) = "onetime" by decide),
      if_neg (show ¬ ("weekly" : String) = "frequently" by decide),
      if_neg (show ¬ ("weekly" : String) = "daily" by decide),
      if_pos trivial]
    rw [goDateUnix, goDateDays_in_range _ _ _ h1 h2,
      daysFromCivil_day now.year now.month
        (now.day - (now.weekday - s.dayName)),
      daysFromCivil_day now.year now.month now.day]
    ring
  refine ⟨hmain, hupd, fun hcond => ?_⟩
  rw [hmain, mostRecentWeekdayDays]
  have hwk : 0 ≤ now.weekday ∧ now.weekday ≤ 6 := by
    rw [GoNow.weekday]
    constructor <;> omega
  have heq : (now.weekday - s.dayName) % 7 = now.weekday - s.dayName := by
    omega
  rw [heq]

/-- Witness for C5: a weekly Monday task polled on Monday 2021-01-04 (the
configured weekday equals today's, so all three components apply). -/
theorem weekly_next_run_witness :
    addTaskNextSched wMon now0
      = mostRecentWeekdayDays now0 wMon.dayName * 86400
        + goAtoi wMon.runAtHour * 3600 + goAtoi wMon.runAtMinute * 60
        + 7 * 86400 :=
  (weekly_next_run wMon now0 rfl (by decide) (by decide) (by decide)
    (by decide)).2.2 (by decide)

/-! ## C3 — computed next-run times versus the current time (corrected) -/

/-- A Frequently task whose interval unit was never configured. -/
def fBad : Tasks := (TaskName "f" "uuid-3" now0 []).Frequently

/-- C3 counterexample: a task with recurrence kind `frequently` but no
configured interval unit gets `nextRunTime = 0` from both `AddTask` and
`UpdateNextRunTime` — not a value strictly greater than the current time,
and not the transient "just became due" case. -/
theorem next_run_future_counterexample :
    fBad.RunType = "frequently"
    ∧ addTaskNextSched fBad now0 = 0
    ∧ updateNextSched fBad now0 = 0
    ∧ ¬ (now0.unix < addTaskNextSched fBad now0) := by decide

/-- Outside the `onetime` kind the two switches compute the same value. -/
theorem updateNextSched_eq_addTask (s : Tasks) (now : GoNow)
    (h : s.RunType ≠ "onetime") :
    updateNextSched s now = addTaskNextSched s now := by
  simp only [addTaskNextSched, updateNextSched]
  rw [if_neg h]

/-- C3 amended: for every task of a recognized *recurring* kind whose
parameters are configured (frequently: recognized unit and a value ≥ 1,
as the interval setters guarantee; weekly: a weekday in 0..6, as the weekday
selectors guarantee; monthly: a month-day ≥ 1; run-at fields parsing to
nonnegative values), the next run time computed by `AddTask` and by
`UpdateNextRunTime` is strictly greater than the current time.  (The original
claim fails for incompletely configured tasks, which get 0; a `onetime` task
is priced separately by C6: its stored time is `≥ now` at the instant
`OneTime` computes it, with equality exactly when it is due that instant,
and it is not recomputed on reschedule.) -/
theorem next_run_strictly_future (s : Tasks) (now : GoNow) (hv : now.Valid)
    (hh : 0 ≤ goAtoi s.runAtHour) (hm : 0 ≤ goAtoi s.runAtMinute)
    (hconf : (s.RunType = "frequently" ∧ 1 ≤ s.FrequencyValue ∧
               (s.FrequencyInterval = "seconds" ∨ s.FrequencyInterval = "minutes"
                 ∨ s.FrequencyInterval = "hours"))
          ∨ s.RunType = "daily"
          ∨ (s.RunType = "weekly" ∧ 0 ≤ s.dayName ∧ s.dayName ≤ 6)
          ∨ (s.RunType = "monthly" ∧ 1 ≤ s.monthDay)) :
    now.unix < addTaskNextSched s now ∧ now.unix < updateNextSched s now := by
  obtain ⟨hm1, hm2, hd1, hd2, hh1, hh2, hmi1, hmi2, hs1, hs2⟩ := hv
  have hmain : now.unix < addTaskNextSched s now := by
    rcases hconf with ⟨hrt, hval, hunit⟩ | hrt | ⟨hrt, hw0, hw6⟩ | ⟨hrt, hmd⟩
    · -- frequently
      simp only [addTaskNextSched, hrt]
      rw [if_neg (show ¬ ("frequently" : String) = "onetime" by decide),
        if_pos trivial]
      rcases hunit with hu | hu | hu <;> simp only [hu]
      · rw [if_pos trivial]; omega
      · rw [if_neg (show ¬ ("minutes" : String) = "seconds" by decide),
          if_pos trivial]
        omega
      · rw [if_neg (show ¬ ("hours" : String) = "seconds" by decide),
          if_neg (show ¬ ("hours" : String) = "minutes" by decide),
          if_pos trivial]
        omega
    · -- daily
      simp only [addTaskNextSched, hrt]
      rw [if_neg (show ¬ ("daily" : String) = "onetime" by decide),
        if_neg (show ¬ ("daily" : String) = "frequently" by decide),
        if_pos trivial]
      rw [goDateUnix, goDateDays_in_range _ _ _ hm1 hm2,
        daysFromCivil_day now.year now.month (now.day + 1)]
      simp only [GoNow.unix]
      rw [daysFromCivil_day now.year now.month now.day]
      omega
    · -- weekly
      simp only [addTaskNextSched, hrt]
      rw [if_neg (show ¬ ("weekly" : String) = "onetime" by decide),
        if_neg (show ¬ ("weekly" : String) = "frequently" by decide),
        if_neg (show ¬ ("weekly" : String) = "daily" by decide),
        if_pos trivial]
      rw [goDateUnix, goDateDays_in_range _ _ _ hm1 hm2,
        daysFromCivil_day now.year now.month
          (now.day - (now.weekday - s.dayName))]
      simp only [GoNow.unix, GoNow.weekday]
      rw [daysFromCivil_day now.year now.month now.day]
      omega
    · -- monthly
      simp only [addTaskNextSched, hrt]
      rw [if_neg (show ¬ ("monthly" : String) = "onetime" by decide),
        if_neg (show ¬ ("monthly" : String) = "frequently" by decide),
        if_neg (show ¬ ("monthly" : String) = "daily" by decide),
        if_neg (show ¬ ("monthly" : String) = "weekly" by decide),
        if_pos trivial]
      have hstep := daysFromCivil_month_step now.year now.month hm1 hm2
      rw [goDateUnix, goDateDays,
        show now.month + 1 - 1 = now.month from by ring,
        daysFromCivil_day (now.year + now.month / 12) (now.month % 12 + 1)
          s.monthDay]
      have hone := daysFromCivil_day (now.year + now.month / 12)
        (now.month % 12 + 1) 1
      have hone2 := daysFromCivil_day now.year now.month 1
      simp only [GoNow.unix]
      rw [daysFromCivil_day now.year now.month now.day]
      omega
  have hne : s.RunType ≠ "onetime" := by
    rcases hconf with ⟨hrt, _⟩ | hrt | ⟨hrt, _⟩ | ⟨hrt, _⟩ <;> rw [hrt] <;> decide
  rw [updateNextSched_eq_addTask s now hne]
  exact ⟨hmain, hmain⟩

/-- A daily task at 07:00. -/
def dTask : Tasks :=
  { wSat with RunType := "daily", runAtHour := "07", runAtMinute := "00" }

/-- Witness for C3: a configured daily task on Monday 2021-01-04 10:00. -/
theorem next_run_strictly_future_witness :
    now0.unix < addTaskNextSched dTask now0
    ∧ now0.unix < updateNextSched dTask now0 :=
  next_run_strictly_future dTask now0 (by decide) (by decide) (by decide)
    (Or.inr (Or.inl rfl))
